import Mathlib

/-!
Verification development for the durable client-side logging pipeline of the
Trust Doors experiment (src/logging/index.js, src/logging/build.js,
src/logging/idb.js).

The JavaScript is shallowly embedded: JS values are modelled by the inductive
type JsVal, stateful module-level variables become fields of explicit state
records, async network outcomes are supplied by an oracle list of booleans,
and the unbounded while-loop of flushSyncBeacon is modelled with fuel
(returning none when the fuel runs out, which stands for non-termination).
Platform builtins that the claims do not depend on (regex-based user-agent
classification, JSON.parse) are environment parameters.
-/

namespace TrustLog

/-- Model of a JavaScript value: undefined, null, booleans, numbers
(restricted to integers; no claim depends on float or NaN semantics),
strings, arrays and objects (insertion-ordered association lists). -/
inductive JsVal where
  | undefined
  | null
  | bool (b : Bool)
  | num (n : Int)
  | str (s : String)
  | arr (xs : List JsVal)
  | obj (fields : List (String × JsVal))

/-- True for undefined and null, the receivers on which JS property access
throws a TypeError. -/
def JsVal.isNullish : JsVal → Bool
  | .undefined => true
  | .null => true
  | _ => false

/-- True exactly for undefined (models a `typeof x !== 'undefined'` test
being false). -/
def JsVal.isUndefined : JsVal → Bool
  | .undefined => true
  | _ => false

/-- JS truthiness: undefined, null, false, 0 and the empty string are falsy;
every other modelled value is truthy. -/
def truthy : JsVal → Bool
  | .undefined => false
  | .null => false
  | .bool b => b
  | .num n => n != 0
  | .str s => !(s == "")
  | .arr _ => true
  | .obj _ => true

/-- Strict equality of a JS value against a string literal
(models `v === 'lit'`). -/
def strEq (v : JsVal) (s : String) : Bool :=
  match v with
  | .str t => t == s
  | _ => false

/-- First-occurrence lookup in an object field list. -/
def lookupField : List (String × JsVal) → String → JsVal
  | [], _ => .undefined
  | (k', v) :: rest, k => if k' == k then v else lookupField rest k

/-- Own-property read on a receiver that is not null/undefined: objects look
up the field, every other value yields undefined. (JS property access on
null/undefined throws; that case is handled explicitly at call sites.) -/
def getOwn (v : JsVal) (k : String) : JsVal :=
  match v with
  | .obj fs => lookupField fs k
  | _ => .undefined

/-- Replace the value at the first occurrence of a key, or append the pair. -/
def setFields : List (String × JsVal) → String → JsVal → List (String × JsVal)
  | [], k, v => [(k, v)]
  | (k', v') :: rest, k, v =>
    if k' == k then (k, v) :: rest else (k', v') :: setFields rest k v

/-- Property assignment on an object; on any non-object receiver the value is
returned unchanged (callers that could hit the strict-mode TypeError of
assigning to a primitive model that throw explicitly). -/
def jsSetField (r : JsVal) (k : String) (v : JsVal) : JsVal :=
  match r with
  | .obj fs => .obj (setFields fs k v)
  | _ => r

/-- Whether a property assignment on this receiver succeeds in strict mode
(objects and arrays); on primitives/null/undefined it throws. -/
def canSetField : JsVal → Bool
  | .obj _ => true
  | .arr _ => true
  | _ => false

/-- Short-circuit `a || b` on JS values. -/
def jsOr (a b : JsVal) : JsVal := if truthy a then a else b

/-- Nullish coalescing `a ?? b`. -/
def jsNullish (a b : JsVal) : JsVal := if a.isNullish then b else a

/-- Object.keys of an object (empty for any other value). -/
def rowKeys : JsVal → List String
  | .obj fs => fs.map Prod.fst
  | _ => []

/-- Object.entries: fields of an object, index-keyed entries of an array,
empty for primitives. -/
def entriesOf : JsVal → List (String × JsVal)
  | .obj fs => fs
  | .arr xs => xs.enum.map (fun p => (toString p.1, p.2))
  | _ => []

mutual

/-- String() coercion of a JS value (array elements that are nullish
coerce to the empty string inside a join, as in JS Array.prototype.toString). -/
def jsToString : JsVal → String
  | .undefined => "undefined"
  | .null => "null"
  | .bool b => if b then "true" else "false"
  | .num n => toString n
  | .str s => s
  | .arr xs => jsToStringList xs
  | .obj _ => "[object Object]"

/-- Comma-join used by Array.prototype.toString. -/
def jsToStringList : List JsVal → String
  | [] => ""
  | [x] => if x.isNullish then "" else jsToString x
  | x :: rest =>
    (if x.isNullish then "" else jsToString x) ++ "," ++ jsToStringList rest

end

/-- JSON string escaping for quotes, backslashes and common control
characters (sufficient for the modelled values). -/
def jsonQuote (s : String) : String :=
  "\"" ++ s.foldl (fun acc c =>
    acc ++ (if c = '"' then "\\\"" else if c = '\\' then "\\\\"
      else if c = '\n' then "\\n" else if c = '\t' then "\\t"
      else if c = '\r' then "\\r" else Char.toString c)) "" ++ "\""

mutual

/-- JSON.stringify on modelled values. A top-level undefined never occurs at
the call sites in the embedded code; inside arrays it serializes as null and
inside objects the member is omitted, as in JS. -/
def jsonStringify : JsVal → String
  | .undefined => "null"
  | .null => "null"
  | .bool b => if b then "true" else "false"
  | .num n => toString n
  | .str s => jsonQuote s
  | .arr xs => "[" ++ jsonStringifyList xs ++ "]"
  | .obj fs => "\x7b" ++ jsonStringifyFields fs ++ "\x7d"

/-- Serialize array elements, comma separated. -/
def jsonStringifyList : List JsVal → String
  | [] => ""
  | [x] => jsonStringify x
  | x :: rest => jsonStringify x ++ "," ++ jsonStringifyList rest

/-- Serialize object members, omitting undefined values. -/
def jsonStringifyFields : List (String × JsVal) → String
  | [] => ""
  | (k, v) :: rest =>
    match v with
    | .undefined => jsonStringifyFields rest
    | _ =>
      let item := jsonQuote k ++ ":" ++ jsonStringify v
      match rest with
      | [] => item
      | _ =>
        let tail := jsonStringifyFields rest
        if tail == "" then item else item ++ "," ++ tail

end

/-- Number() coercion. NaN and fractional results are not modelled (no claim
depends on them): coercion failures map to JsVal.null. -/
def jsToNumber : JsVal → JsVal
  | .num n => .num n
  | .bool b => .num (if b then 1 else 0)
  | .null => .num 0
  | .str s => match s.toInt? with | some n => .num n | none => .null
  | _ => .null

/-- Errors thrown by the embedded JavaScript. -/
inductive JsErr where
  | typeError
  | quotaExceeded

/-- Result of the regex-based lightweight user-agent classification
(parseUA in build.js). The regex matching itself is a platform facility the
claims do not depend on, so it is carried in the environment. -/
structure UAInfo where
  device_type : String
  browser_name : String
  browser_major : JsVal

/-- Ambient data read by buildRowsForLogging: navigator.userAgent, the
ISO timestamp taken at entry, window.CONFIG.set_id (already reduced to the
value or null), the per-session id, document.fullscreenElement coerced to a
boolean, the parseUA classifier, and the platform JSON.parse (none models a
SyntaxError, which the source catches). -/
structure BuildEnv where
  ua : String
  nowIso : String
  setId : JsVal
  sessionId : String
  isFullscreen : Bool
  parseUA : String → UAInfo
  jsonParse : String → Option JsVal

/-- Client version constant from build.js. -/
def APP_VERSION : String := "0.1.0"

/-- Allow-list of high-signal events to retain. -/
def ALLOW_TYPES : List String :=
  ["door_trial", "trust_probe_mid", "reputation_item", "reputation_probe",
   "questionnaire40pre", "questionnaire40post", "questionnaire14mid1",
   "questionnaire14mid2", "questionnaire", "demographics", "emergency_trial"]

/-- Low-value instruction/transition screens to drop. -/
def IGNORE_TRIAL_TYPES : List String :=
  ["training_intro", "overview_rescuer", "robot_description",
   "fade_transition", "transition"]

/-- Set membership test ALLOW_TYPES.has(v): only strings can be members. -/
def allowHas (v : JsVal) : Bool :=
  match v with
  | .str s => ALLOW_TYPES.contains s
  | _ => false

/-- Set membership test IGNORE_TRIAL_TYPES.has(v). -/
def ignoreHas (v : JsVal) : Bool :=
  match v with
  | .str s => IGNORE_TRIAL_TYPES.contains s
  | _ => false

/-- Return file name (without path) or null (baseName in build.js):
`(s && typeof s === 'string') ? s.split('/').pop() : null`. -/
def baseName (v : JsVal) : JsVal :=
  match v with
  | .str s => if s == "" then .null else .str (((s.splitOn "/").getLastD s))
  | _ => .null

/-- Convert object of answers to a list of [question, answer] pairs
(pairsFromObject in build.js); non-objects yield null. -/
def pairsFromObject (v : JsVal) : JsVal :=
  match v with
  | .obj fs => .arr (fs.map (fun kv => .arr [.str kv.1, kv.2]))
  | .arr xs => .arr (xs.enum.map (fun p => .arr [.str (toString p.1), p.2]))
  | _ => .null

/-- Helper for the repeated `(typeof d.k !== 'undefined') ? d.k : null`. -/
def defOr (d : JsVal) (k : String) : JsVal :=
  match getOwn d k with
  | .undefined => .null
  | v => v

/-- Helper for `(typeof x === 'number') ? x : ...` score selection. -/
def numOr (a b : JsVal) : JsVal :=
  match a with
  | .num n => .num n
  | _ =>
    match b with
    | .num n => .num n
    | _ => .null

/-- Extract questionnaire payload (extractQuestionnaireFields in build.js):
returns the pair (qa_pairs_json, questionnaire_score). -/
def extractQuestionnaireFields (env : BuildEnv) (d : JsVal) : JsVal × JsVal :=
  if strEq (getOwn d "event_type") "demographics" then (.null, .null)
  else if truthy (getOwn d "trust40_raw") then
    (.str (jsonStringify (pairsFromObject (getOwn d "trust40_raw"))),
     numOr (getOwn d "trust40_total_percent") (getOwn d "trust40_total_score"))
  else if truthy (getOwn d "trust14_raw") then
    (.str (jsonStringify (pairsFromObject (getOwn d "trust14_raw"))),
     numOr (getOwn d "trust14_total_percent") (getOwn d "trust14_total_score"))
  else
    match getOwn d "responses" with
    | .str s =>
      if s.trim.startsWith "\x7b" then
        match env.jsonParse s with
        | some parsed => (.str (jsonStringify (pairsFromObject parsed)), .null)
        | none => (.null, .null)
      else (.null, .null)
    | _ => (.null, .null)

/-- Map the trial payload to a canonical event_type (mapEventType in
build.js). The receiver d is known to be non-nullish at every call. -/
def mapEventType (d : JsVal) : JsVal :=
  let ev := getOwn d "event_type"
  if truthy ev then ev
  else
    let tt := jsOr (getOwn d "trial_type") (.str "")
    if !(getOwn d "true_location").isUndefined || strEq tt "door" then .str "door_trial"
    else if strEq tt "trust_probe" then .str "trust_probe_mid"
    else if strEq tt "reviews_set" then .str "reputation_item"
    else if strEq tt "reputation_probe" then .str "reputation_probe"
    else if strEq tt "trust40_pre" then .str "questionnaire40pre"
    else if strEq tt "trust40_post" then .str "questionnaire40post"
    else if strEq tt "trust14_mid1" then .str "questionnaire14mid1"
    else if strEq tt "trust14_mid2" then .str "questionnaire14mid2"
    else if truthy (getOwn d "trust40_raw") || truthy (getOwn d "trust14_raw")
         || truthy (getOwn d "responses") then .str "questionnaire"
    else tt

/-- Provide a single response field per event type (unifiedResponse in
build.js). -/
def unifiedResponse (d et : JsVal) : JsVal :=
  if strEq et "door_trial" then
    let f0 : JsVal :=
      match getOwn d "followed" with
      | .bool b => .bool b
      | _ => .null
    let f : JsVal :=
      match f0 with
      | .null =>
        if !(getOwn d "choice").isUndefined && !(getOwn d "suggestion").isUndefined then
          .bool (jsToString (getOwn d "choice") == jsToString (getOwn d "suggestion"))
        else .null
      | v => v
    let c : JsVal :=
      match getOwn d "correct" with
      | .bool b => .bool b
      | _ => .null
    .str (jsonStringify (.obj [("followed", f), ("correct", c)]))
  else if strEq et "trust_probe_mid" then
    if !(getOwn d "slider_value").isUndefined then jsToNumber (getOwn d "slider_value")
    else .null
  else if strEq et "reputation_probe" then
    if !(getOwn d "reputation_probe_delta").isUndefined then getOwn d "reputation_probe_delta"
    else if !(getOwn d "response").isUndefined then getOwn d "response"
    else .null
  else if strEq et "emergency_trial" then
    jsNullish (getOwn d "emergency_preference")
      (match getOwn d "response" with
       | .num 0 => .str "self"
       | .num 1 => .str "robot"
       | _ => .null)
  else if strEq et "questionnaire40pre" || strEq et "questionnaire40post" then
    jsNullish (getOwn d "trust40_total_percent")
      (jsNullish (getOwn d "trust40_total_score") .null)
  else if strEq et "questionnaire14mid1" || strEq et "questionnaire14mid2" then
    jsNullish (getOwn d "trust14_total_percent")
      (jsNullish (getOwn d "trust14_total_score") .null)
  else if strEq et "demographics" then
    match getOwn d "response" with
    | .str s => .str s
    | _ => .null
  else if !(getOwn d "response").isUndefined then getOwn d "response"
  else .null

/-- Pass unknown fields of d through onto the row: for each entry of d whose
key is not in the reserved set, assign it on the row. -/
def applyPassthrough (reserved : List String) (fs : List (String × JsVal))
    (row : JsVal) : JsVal :=
  fs.foldl (fun r kv => if reserved.contains kv.1 then r else jsSetField r kv.1 kv.2) row

/-- The row object literal built for a retained record (the `const row =`
object of buildRowsForLogging), parameterized by the resolved event type
and the once-per-session user-agent field. -/
def rowLiteral (env : BuildEnv) (d : JsVal) (et uaField : JsVal) : JsVal :=
  let ui := env.parseUA env.ua
  let rt_ms : JsVal :=
    match getOwn d "reaction_time_s" with
    | .num n => .num (n * 1000)
    | _ => .null
  let followed : JsVal :=
    if !(getOwn d "choice").isUndefined && !(getOwn d "suggestion").isUndefined then
      .bool (jsToString (getOwn d "choice") == jsToString (getOwn d "suggestion"))
    else .null
  let risk_key : JsVal :=
    if !(getOwn d "risk_key").isUndefined then getOwn d "risk_key"
    else if truthy (getOwn d "risk_overrides")
         && truthy (getOwn (getOwn d "risk_overrides") "risk_key") then
      getOwn (getOwn d "risk_overrides") "risk_key"
    else .null
  let risk_value : JsVal :=
    if !(getOwn d "risk_value").isUndefined then getOwn d "risk_value"
    else if truthy (getOwn d "risk_overrides")
         && !((getOwn (getOwn d "risk_overrides") "risk_value").isUndefined) then
      getOwn (getOwn d "risk_overrides") "risk_value"
    else .null
  let probe_id := jsOr (getOwn d "probe_context") (jsOr (getOwn d "probe_id") .null)
  .obj
      [ ("session_id",
          if !(getOwn d "session_id").isUndefined then getOwn d "session_id"
          else .str env.sessionId),
        ("participant_id", jsOr (getOwn d "participant_id") (.str "")),
        ("set_id", env.setId),
        ("block_index", defOr d "block_index"),
        ("trial_index", defOr d "trial_index"),
        ("event_type", et),
        ("ts_client", .str env.nowIso),
        ("ts_seq", defOr d "_ts_seq"),
        ("row_id",
          if !(getOwn d "_ts_seq").isUndefined then
            .str (env.sessionId ++ ":" ++ jsToString (getOwn d "_ts_seq"))
          else .null),
        ("is_fullscreen", .bool env.isFullscreen),
        ("device_type", .str ui.device_type),
        ("browser_name", .str ui.browser_name),
        ("browser_major", ui.browser_major),
        ("user_agent", uaField),
        ("seed", jsOr (getOwn d "seed") (.str "")),
        ("risk_key", risk_key),
        ("risk_value", risk_value),
        ("suggestion", defOr d "suggestion"),
        ("followed", followed),
        ("correct", defOr d "correct"),
        ("rt_ms", rt_ms),
        ("probe_id", probe_id),
        ("response", unifiedResponse d et),
        ("review_condition", defOr d "review_condition"),
        ("review_expected", defOr d "review_expected"),
        ("review_ids", defOr d "review_ids"),
        ("review_tones", defOr d "review_tones"),
        ("review_avatars", defOr d "review_avatars"),
        ("victim_skin", baseName (getOwn d "victim_src")),
        ("background_src", baseName (getOwn d "background_src")),
        ("door_src", baseName (getOwn d "door_src")),
        ("client_version", .str APP_VERSION),
        ("trial_type",
          jsOr (getOwn d "trial_type")
            (if !(getOwn d "true_location").isUndefined then .str "door" else .str "")),
        ("true_location", defOr d "true_location"),
        ("reaction_time_s", defOr d "reaction_time_s"),
        ("slider_value", defOr d "slider_value"),
        ("emergency_choice_index",
          if strEq (getOwn d "trial_type") "survey_button" then getOwn d "choice"
          else .null),
        ("ts", .str env.nowIso) ]

/-- Process one trial record (the body of the allTrials.map callback in
buildRowsForLogging). The record d is non-nullish (the caller models the
TypeError of property access on null/undefined). Returns the produced row
(none when the record is filtered out) and the updated UA-emitted flag. -/
def buildOneRow (env : BuildEnv) (uaEmitted : Bool) (d : JsVal) :
    Option JsVal × Bool :=
  let et := mapEventType d
  if ignoreHas (jsOr (getOwn d "trial_type") (.str "")) || !(allowHas et) then
    (none, uaEmitted)
  else if (match getOwn d "is_demo" with | .bool true => true | _ => false)
       || strEq et "training_demo"
       || strEq (getOwn d "trial_type") "training_demo" then
    (none, uaEmitted)
  else
    let uaField : JsVal := if uaEmitted then .null else .str env.ua
    let row : JsVal := rowLiteral env d et uaField
    let uaEmitted' := if !uaEmitted && truthy uaField then true else uaEmitted
    let ets : String :=
      match jsOr (getOwn row "event_type") (.str "") with
      | .str s => s
      | _ => ""
    -- here row.event_type passed the allow-list, so ets is one of its strings
    let isQ := ets == "questionnaire" || ets.startsWith "questionnaire"
               || ets == "demographics"
    let qf := if isQ then extractQuestionnaireFields env d else (.null, .null)
    let row := jsSetField row "qa_pairs_json" qf.1
    let row := jsSetField row "questionnaire_score" qf.2
    let reserved := rowKeys row
    let row := applyPassthrough reserved (entriesOf d) row
    (some row, uaEmitted')

/-- Convert an array of trial objects into normalized rows
(buildRowsForLogging in build.js). A null/undefined element makes the map
callback throw a TypeError at its first property access, which aborts the
whole call; the UA-emitted flag mutations made before the throw persist, so
the flag is returned alongside the Except. -/
def buildRowsForLogging (env : BuildEnv) :
    Bool → List JsVal → Except JsErr (List JsVal) × Bool
  | uaEmitted, [] => (.ok [], uaEmitted)
  | uaEmitted, d :: rest =>
    if d.isNullish then (.error .typeError, uaEmitted)
    else
      let step := buildOneRow env uaEmitted d
      match buildRowsForLogging env step.2 rest with
      | (.ok rows, flag) => (.ok (step.1.toList ++ rows), flag)
      | (.error e, flag) => (.error e, flag)

/-- Run a sequence of buildRowsForLogging calls within one session,
concatenating the rows of the successful ones and stopping at the first call
that throws (models repeated invocations sharing window.__UA_EMITTED__). -/
def buildCalls (env : BuildEnv) :
    Bool → List (List JsVal) → Except JsErr (List JsVal) × Bool
  | uaEmitted, [] => (.ok [], uaEmitted)
  | uaEmitted, c :: cs =>
    match buildRowsForLogging env uaEmitted c with
    | (.ok rows, flag) =>
      match buildCalls env flag cs with
      | (.ok rest, flagF) => (.ok (rows ++ rest), flagF)
      | (.error e, flagF) => (.error e, flagF)
    | (.error e, flag) => (.error e, flag)

/-! ### Durable Store backends (src/logging/idb.js) -/

/-- A queue entry of the IndexedDB backend: auto-incremented key, createdAt
timestamp and the wrapped row. -/
structure QEntry (α : Type) where
  id : Nat
  createdAt : Nat
  row : α
deriving DecidableEq, Repr

/-- State of the IndexedDB object store: the entries in insertion order
(cursor order equals ascending auto-increment key order) and the key
generator. -/
structure IdbStore (α : Type) where
  entries : List (QEntry α)
  nextId : Nat
deriving DecidableEq, Repr

/-- idbDeleteIds on the IndexedDB backend: delete each listed item by its
primary key. -/
def idbDeleteIds (items : List (QEntry α)) (entries : List (QEntry α)) :
    List (QEntry α) :=
  entries.filter (fun e => !(items.any (fun it => it.id == e.id)))

/-- idbPutAll on the IndexedDB backend. writeOk models whether the readwrite
transaction completes; a failed transaction fires onerror which the source
resolves anyway (errors are swallowed), so no error is ever reported. -/
def idbPutAll (writeOk : Bool) (now : Nat) (rows : List α) (s : IdbStore α) :
    IdbStore α × Option JsErr :=
  if writeOk then
    ({ entries := s.entries ++ ((List.range rows.length).zip rows).map
         (fun p => ⟨s.nextId + p.1, now, p.2⟩),
       nextId := s.nextId + rows.length }, none)
  else (s, none)

/-- A synthetic entry of the localStorage fallback backend. -/
structure LsEntry (α : Type) where
  id : String
  row : α
  rawIndex : Nat
deriving DecidableEq, Repr

/-- idbReadBatch on the localStorage fallback: the first limit rows of the
stored array, wrapped with synthetic identifiers. -/
def lsReadBatch (limit : Nat) (arr : List α) : List (LsEntry α) :=
  (arr.take limit).enum.map (fun p => ⟨"ls_" ++ toString p.1, p.2, p.1⟩)

/-- idbDeleteIds on the localStorage fallback: drop the first N items
(the batch is always a head slice). -/
def lsDeleteIds (items : List (LsEntry α)) (arr : List α) : List α :=
  arr.drop items.length

/-- idbPutAll on the localStorage fallback. quotaOk models whether
localStorage.setItem succeeds; on quota exhaustion setItem throws
synchronously and nothing in the source catches it, so the error
propagates out of idbPutAll. -/
def lsPutAll (quotaOk : Bool) (rows : List α) (arr : List α) :
    List α × Option JsErr :=
  if quotaOk then (arr ++ rows, none) else (arr, some .quotaExceeded)

/-! ### Delivery Engine (src/logging/index.js) -/

/-- Module-level state of src/logging/index.js together with the window
globals it reads: the persistent store (σ is the backend state), the
in-memory mirror window.__LOG_BUFFER__, LOG_RETRY_ATTEMPTS, the pending
LOG_BACKOFF_TIMER with its delay, LOG_FLUSHING, window.__DISCARD_DATA__,
window.LOG_SEQ (none until first initialized) and window.__UA_EMITTED__. -/
structure EngineState (σ : Type) (α : Type) where
  persist : σ
  buffer : List α
  retryAttempts : Nat
  backoffTimer : Option Nat
  flushing : Bool
  discard : Bool
  logSeq : Option Int
  uaEmitted : Bool
deriving Repr

/-- Batch size constant LOG_BATCH_SIZE. -/
def LOG_BATCH_SIZE : Nat := 25

/-- Backoff formula from flushQueue:
Math.min(30000, 500 * Math.pow(2, LOG_RETRY_ATTEMPTS)). -/
def backoffMs (n : Nat) : Nat := min 30000 (500 * 2 ^ n)

/-- scheduleFlush: no-op in discard mode or while a backoff timer is already
pending, otherwise arm the single timer with the requested delay. -/
def scheduleFlush (delayMs : Nat) (st : EngineState σ α) : EngineState σ α :=
  if st.discard then st
  else
    match st.backoffTimer with
    | some _ => st
    | none => { st with backoffTimer := some delayMs }

/-- The storage operations the drain loop performs against a backend:
read up to n entries from the head, delete a batch of entries, project an
entry to its row, and measure the store (used only to pick a sufficient
fuel for the loop model). -/
structure FlushCtx (σ β α : Type) where
  readBatch : Nat → σ → List β
  deleteIds : List β → σ → σ
  rowOf : β → α
  size : σ → Nat

/-- Drain-loop operations of the IndexedDB backend. -/
def ctxIdb (α : Type) : FlushCtx (IdbStore α) (QEntry α) α where
  readBatch := fun n s => s.entries.take n
  deleteIds := fun items s => { s with entries := idbDeleteIds items s.entries }
  rowOf := QEntry.row
  size := fun s => s.entries.length

/-- Drain-loop operations of the localStorage fallback backend. -/
def ctxLs (α : Type) : FlushCtx (List α) (LsEntry α) α where
  readBatch := lsReadBatch
  deleteIds := lsDeleteIds
  rowOf := LsEntry.row
  size := List.length

/-- Body of the for(;;) drain loop of flushQueue. The network outcome of
each sendBatch call is supplied by the oracle list results (sendBatch never
throws: it catches and returns false). In discard mode sendBatch returns
true without consulting the network. Returns the final state together with
the list of acknowledged batches, in the order they were sent. The loop is
fuelled; flushQueue supplies fuel exceeding the store size, which the
theorems show is enough. An exhausted oracle stops the loop (the theorems
always supply sufficient outcomes). -/
def flushLoop (ctx : FlushCtx σ β α) (batchSize : Nat) :
    Nat → List Bool → EngineState σ α → EngineState σ α × List (List β)
  | 0, _, st => (st, [])
  | fuel + 1, results, st =>
    let batch := ctx.readBatch batchSize st.persist
    if batch.isEmpty then
      ({ st with buffer := [], retryAttempts := 0 }, [])
    else if st.discard then
      let rows := batch.map ctx.rowOf
      let st' := { st with persist := ctx.deleteIds batch st.persist,
                           buffer := st.buffer.drop rows.length,
                           retryAttempts := 0 }
      let out := flushLoop ctx batchSize fuel results st'
      (out.1, batch :: out.2)
    else
      match results with
      | [] => (st, [])
      | ok :: rest =>
        if ok then
          let rows := batch.map ctx.rowOf
          let st' := { st with persist := ctx.deleteIds batch st.persist,
                               buffer := st.buffer.drop rows.length,
                               retryAttempts := 0 }
          let out := flushLoop ctx batchSize fuel rest st'
          (out.1, batch :: out.2)
        else
          let st' := { st with retryAttempts := st.retryAttempts + 1 }
          (scheduleFlush (backoffMs st'.retryAttempts) st', [])

/-- flushQueue: refuse to run when already flushing or in discard mode, set
the re-entrancy flag, drain the store in LOG_BATCH_SIZE batches, and clear
the flag on exit. -/
def flushQueue (ctx : FlushCtx σ β α) (results : List Bool)
    (st : EngineState σ α) : EngineState σ α × List (List β) :=
  if st.flushing || st.discard then (st, [])
  else
    let out := flushLoop ctx LOG_BATCH_SIZE (ctx.size st.persist + 1) results
      { st with flushing := true }
    ({ out.1 with flushing := false }, out.2)

/-- logEnqueue: push the rows onto the in-memory mirror, persist them via
idbPutAll (whose backend is abstracted by the putAll argument), then
schedule a near-term flush. When the persistent write throws (localStorage
quota), the await rejects before scheduleFlush runs and logEnqueue's
promise rejects with that error. -/
def logEnqueue (putAll : List α → σ → σ × Option JsErr) (rows : List α)
    (st : EngineState σ α) : EngineState σ α × Option JsErr :=
  let st1 := { st with buffer := st.buffer ++ rows }
  match putAll rows st1.persist with
  | (p, none) => (scheduleFlush 250 { st1 with persist := p }, none)
  | (p, some e) => ({ st1 with persist := p }, some e)

/-- logTrialRow (build.js): no-op in discard mode; otherwise stamp the
monotonic per-session sequence number on the record, normalize it and
enqueue the produced rows. The try/catch swallows a TypeError from
buildRowsForLogging (and the strict-mode TypeError of stamping _ts_seq on a
primitive record, modelled by canSetField); logEnqueue is fire-and-forget,
so its rejection is not observed here. -/
def logTrialRow (env : BuildEnv) (putAll : List JsVal → σ → σ × Option JsErr)
    (d : JsVal) (st : EngineState σ JsVal) : EngineState σ JsVal :=
  if st.discard then st
  else
    let seq : Int := st.logSeq.getD 1
    let st := { st with logSeq := some (seq + 1) }
    if !(canSetField d) then st
    else
      let d' := jsSetField d "_ts_seq" (.num seq)
      match buildRowsForLogging env st.uaEmitted [d'] with
      | (.ok rows, flag) =>
        (logEnqueue putAll rows { st with uaEmitted := flag }).1
      | (.error _, flag) => { st with uaEmitted := flag }

/-! ### Emergency flush (flushSyncBeacon in src/logging/index.js) -/

/-- Payload size cap of flushSyncBeacon (maxBytes in the source). -/
def beaconMaxBytes : Nat := 60000

/-- The while (end > sliceStart) shrink loop of flushSyncBeacon. blobSize
abstracts the byte size of
`new Blob(['payload=' + encodeURIComponent(JSON.stringify({rows: slice}))])`
as a function of the slice (rows are arbitrary JS objects, so the byte count
is environment data). blob carries the last Blob built, as in the source;
fuel bounds the number of iterations and none models a loop that has not
terminated within the fuel. -/
def beaconLoop (blobSize : List α → Nat) (buf : List α) (sliceStart : Nat) :
    Nat → Nat → Option (List α) → Option (List α)
  | 0, _, _ => none
  | fuel + 1, e, blob =>
    if sliceStart < e then
      let slice := (buf.drop sliceStart).take (e - sliceStart)
      if blobSize slice ≤ beaconMaxBytes then some slice
      else beaconLoop blobSize buf sliceStart fuel
        (max (sliceStart + 1) ((sliceStart + e) / 2)) (some slice)
    else blob

/-- flushSyncBeacon: nothing to send on an empty mirror; otherwise select
the window of the last LOG_BATCH_SIZE rows (Nat subtraction realizes the
Math.max(0, ·)) and run the shrink loop; the result is the payload handed
to navigator.sendBeacon (none when nothing is sent). -/
def flushSyncBeacon (blobSize : List α → Nat) (buf : List α) (fuel : Nat) :
    Option (List α) :=
  if buf.isEmpty then none
  else beaconLoop blobSize buf (buf.length - LOG_BATCH_SIZE) fuel buf.length none

/-! ### Concrete fixtures used to instantiate the theorems -/

/-- A sample non-empty user-agent string. -/
def testUA : String := "Mozilla/5.0 TestBrowser/42"

/-- A concrete normalization environment (the regex classifier and
JSON.parse are irrelevant to the instantiated claims). -/
def testEnv : BuildEnv where
  ua := testUA
  nowIso := "2026-01-01T00:00:00.000Z"
  setId := .null
  sessionId := "sess1"
  isFullscreen := false
  parseUA := fun _ => ⟨"desktop", "Other", .null⟩
  jsonParse := fun _ => none

/-- The same environment in a browser whose user-agent string is empty. -/
def blankUaEnv : BuildEnv := { testEnv with ua := "" }

/-- A minimal retained record: a door trial. -/
def doorRecord : JsVal := .obj [("trial_type", .str "door")]

/-- Extract the rows of a successful normalization result (empty on error). -/
def okRows (p : Except JsErr (List JsVal) × Bool) : List JsVal :=
  match p.1 with
  | .ok r => r
  | .error _ => []

/-- An engine state over the IndexedDB backend holding the given rows, with
ids 0, 1, 2, ... in insertion order and a matching in-memory mirror. -/
def mkIdbState (rows : List α) : EngineState (IdbStore α) α where
  persist := { entries := rows.enum.map (fun p => ⟨p.1, 0, p.2⟩),
               nextId := rows.length }
  buffer := rows
  retryAttempts := 0
  backoffTimer := none
  flushing := false
  discard := false
  logSeq := none
  uaEmitted := false

/-- An empty IndexedDB-backed engine state with the discard flag set. -/
def discardState : EngineState (IdbStore Nat) Nat :=
  { mkIdbState [] with discard := true }

/-- A discard-mode engine state carrying JsVal rows. -/
def discardStateJs : EngineState (IdbStore JsVal) JsVal :=
  { persist := { entries := [], nextId := 0 }, buffer := [],
    retryAttempts := 0, backoffTimer := none, flushing := false,
    discard := true, logSeq := none, uaEmitted := false }

/-- An empty localStorage-backed engine state. -/
def lsState0 : EngineState (List Nat) Nat where
  persist := []
  buffer := []
  retryAttempts := 0
  backoffTimer := none
  flushing := false
  discard := false
  logSeq := none
  uaEmitted := false

/-- Serialized-body size of a mirror whose every row form-encodes to about
70KB (realizable with rows holding long strings): used to exhibit the
stationary point of the shrink loop. -/
def hugeRowSize : List Nat → Nat := fun l => 70000 * l.length + 30

/-- Serialized-body size where each row form-encodes to 20100 bytes: three
rows exceed the cap, two rows fit, one row fits. -/
def cexSize : List Nat → Nat := fun l => 20100 * l.length

/-- Serialized-body size where each row form-encodes to 1000 bytes. -/
def smallSize : List Nat → Nat := fun l => 1000 * l.length

/-! ### Helper lemmas -/

/-- scheduleFlush touches only the timer: every other field is unchanged. -/
theorem scheduleFlush_fields (d : Nat) (st : EngineState σ α) :
    (scheduleFlush d st).persist = st.persist
    ∧ (scheduleFlush d st).buffer = st.buffer
    ∧ (scheduleFlush d st).retryAttempts = st.retryAttempts
    ∧ (scheduleFlush d st).flushing = st.flushing
    ∧ (scheduleFlush d st).discard = st.discard := by
  unfold scheduleFlush
  split
  · exact ⟨rfl, rfl, rfl, rfl, rfl⟩
  · split <;> exact ⟨rfl, rfl, rfl, rfl, rfl⟩

/-- scheduleFlush is a no-op while a timer is pending. -/
theorem scheduleFlush_pending (d d0 : Nat) (st : EngineState σ α)
    (h : st.backoffTimer = some d0) : scheduleFlush d st = st := by
  cases hd : st.discard <;> simp [scheduleFlush, hd, h]

/-- scheduleFlush arms the timer when idle and not discarding. -/
theorem scheduleFlush_arm (d : Nat) (st : EngineState σ α)
    (h1 : st.discard = false) (h2 : st.backoffTimer = none) :
    scheduleFlush d st = { st with backoffTimer := some d } := by
  simp [scheduleFlush, h1, h2]

/-! ### C7 -/

/-- C7: at most one flush timer is ever pending. Calling scheduleFlush while
a timer is pending is a no-op (the state, hence the pending delay, is
unchanged even for a shorter requested delay), and two scheduleFlush calls
in quick succession from an idle state leave exactly the first-scheduled
delay pending. -/
theorem c7_idempotent_scheduling (σ α : Type) :
    (∀ (st : EngineState σ α) (d d0 : Nat), st.backoffTimer = some d0 →
      scheduleFlush d st = st)
    ∧ (∀ (st : EngineState σ α) (d1 d2 : Nat), st.backoffTimer = none →
      st.discard = false →
      (scheduleFlush d2 (scheduleFlush d1 st)).backoffTimer = some d1) := by
  constructor
  · intro st d d0 h
    exact scheduleFlush_pending d d0 st h
  · intro st d1 d2 h1 h2
    rw [scheduleFlush_arm d1 st h2 h1,
        scheduleFlush_pending d2 d1 _ rfl]

/-- Witness for C7 at a concrete idle state and delays 100 then 50. -/
theorem c7_idempotent_scheduling_w :
    (scheduleFlush 50 (scheduleFlush 100 lsState0)).backoffTimer = some 100 :=
  (c7_idempotent_scheduling (List Nat) Nat).2 lsState0 100 50 rfl rfl

/-! ### C10 -/

/-- The shrink loop is stationary at end = sliceStart + 1 on a buffer whose
single selected row exceeds the cap: no fuel suffices. -/
theorem beaconLoop_huge (fuel : Nat) :
    ∀ blob, beaconLoop hugeRowSize [0] 0 fuel 1 blob = none := by
  induction fuel with
  | zero => intro blob; rfl
  | succ n ih =>
    intro blob
    rw [beaconLoop]
    simp only [show (0 : Nat) < 1 by decide, if_true]
    rw [if_neg (by decide)]
    exact ih _

/-- C10 (code bug): the payload-shrinking loop of flushSyncBeacon does not
terminate when the single row at the window start already serializes above
the 60000-byte cap: end stays at sliceStart + 1 because
max(sliceStart+1, (sliceStart+end)/2) = sliceStart+1 there, the blob never
fits, and the loop never exits, for any amount of fuel. -/
theorem c10_beacon_nontermination :
    beaconMaxBytes < hugeRowSize [0]
    ∧ ∀ fuel : Nat, flushSyncBeacon hugeRowSize [0] fuel = none := by
  refine ⟨by decide, fun fuel => ?_⟩
  unfold flushSyncBeacon
  rw [if_neg (by decide)]
  exact beaconLoop_huge fuel none

/-! ### C5 -/

/-- C5 counterexample: with three rows of 20100 serialized bytes each, the
shrink loop sends only the oldest row of the window ([0]) even though the
two most recent rows ([1, 2]) fit under the cap together — the shrinking
truncates from the end of the window, dropping the most recent rows first,
contradicting the claim that the slice prefers the most recent rows. -/
theorem c5_counterexample :
    flushSyncBeacon cexSize [0, 1, 2] 9 = some [0]
    ∧ cexSize [1, 2] ≤ beaconMaxBytes
    ∧ beaconMaxBytes < cexSize [0, 1, 2]
    ∧ (2 : Nat) ∉ ([0] : List Nat) := by decide

/-- Any slice the shrink loop returns starts at sliceStart, ends at or
before the initial end, and fits under the cap. -/
theorem beaconLoop_shape (blobSize : List α → Nat) (buf : List α) (s : Nat) :
    ∀ (fuel e : Nat) (blob : Option (List α)) (sent : List α),
      s < e → e ≤ buf.length →
      beaconLoop blobSize buf s fuel e blob = some sent →
      blobSize sent ≤ beaconMaxBytes
      ∧ ∃ e', s < e' ∧ e' ≤ buf.length
          ∧ sent = (buf.drop s).take (e' - s) := by
  intro fuel
  induction fuel with
  | zero =>
    intro e blob sent _ _ heq
    exact absurd heq (by simp [beaconLoop])
  | succ n ih =>
    intro e blob sent h1 h2 heq
    rw [beaconLoop, if_pos h1] at heq
    by_cases hfit : blobSize ((buf.drop s).take (e - s)) ≤ beaconMaxBytes
    · rw [if_pos hfit] at heq
      have hs : sent = (buf.drop s).take (e - s) := (Option.some.inj heq).symm
      exact ⟨hs ▸ hfit, e, h1, h2, hs⟩
    · rw [if_neg hfit] at heq
      refine ih _ _ sent ?_ ?_ heq
      · exact lt_of_lt_of_le (Nat.lt_succ_self s) (le_max_left _ _)
      · refine max_le (by omega) ?_
        have hde : (s + e) / 2 ≤ e := by omega
        omega

/-- C5 amended: whenever flushSyncBeacon (run with any fuel) transmits a
payload from a non-empty mirror, that payload is a contiguous slice of the
mirror starting at the fixed window start max(0, len − 25) (so the window
selection prefers the tail of the mirror) whose abstracted serialized size
fits under the 60000-byte cap; the shrinking truncates the slice from the
window's end, so the retained rows are the oldest of the window, not the
most recent. -/
theorem c5_beacon_slice (blobSize : List α → Nat) (buf : List α) (fuel : Nat)
    (sent : List α) (hne : buf ≠ [])
    (h : flushSyncBeacon blobSize buf fuel = some sent) :
    blobSize sent ≤ beaconMaxBytes
    ∧ ∃ e', buf.length - LOG_BATCH_SIZE < e' ∧ e' ≤ buf.length
        ∧ sent = (buf.drop (buf.length - LOG_BATCH_SIZE)).take
            (e' - (buf.length - LOG_BATCH_SIZE)) := by
  unfold flushSyncBeacon at h
  rw [if_neg (by simpa using hne)] at h
  refine beaconLoop_shape blobSize buf _ fuel buf.length none sent ?_ (le_refl _) h
  have hlen : 0 < buf.length := List.length_pos.mpr hne
  exact Nat.sub_lt hlen (by decide)

/-- Witness for C5 (amended) on a three-row mirror of small rows that fits
without shrinking. -/
theorem c5_beacon_slice_w :
    smallSize [1, 2, 3] ≤ beaconMaxBytes
    ∧ ∃ e', ([1, 2, 3] : List Nat).length - LOG_BATCH_SIZE < e'
        ∧ e' ≤ ([1, 2, 3] : List Nat).length
        ∧ [1, 2, 3] = (([1, 2, 3] : List Nat).drop
            (([1, 2, 3] : List Nat).length - LOG_BATCH_SIZE)).take
            (e' - (([1, 2, 3] : List Nat).length - LOG_BATCH_SIZE)) :=
  c5_beacon_slice smallSize [1, 2, 3] 5 [1, 2, 3] (by decide) (by rfl)

/-! ### C9 -/

/-- C9 counterexample: on the localStorage backend a quota error thrown by
setItem propagates out of idbPutAll, so logEnqueue rejects instead of
completing — the claim that a storage write error is swallowed on either
backend fails (the rows are nonetheless in the in-memory mirror, and no
flush is scheduled because the await rejected before scheduleFlush). -/
theorem c9_counterexample :
    (logEnqueue (lsPutAll false) [5] lsState0).2 = some JsErr.quotaExceeded
    ∧ (logEnqueue (lsPutAll false) [5] lsState0).1.buffer = [5]
    ∧ (logEnqueue (lsPutAll false) [5] lsState0).1.backoffTimer = none :=
  ⟨rfl, rfl, rfl⟩

/-- C9 amended: on the IndexedDB backend every persistent-write outcome is
swallowed (logEnqueue completes without error and the rows are in the
mirror); on the localStorage backend a successful write also completes, but
a quota error propagates out of logEnqueue — the rows are still in the
in-memory mirror because the mirror push precedes the persistent write,
and the persistent array is unchanged. -/
theorem c9_enqueue_errors (α : Type) :
    (∀ (writeOk : Bool) (now : Nat) (rows : List α)
       (st : EngineState (IdbStore α) α),
        (logEnqueue (idbPutAll writeOk now) rows st).2 = none
        ∧ (logEnqueue (idbPutAll writeOk now) rows st).1.buffer
            = st.buffer ++ rows)
    ∧ (∀ (rows : List α) (st : EngineState (List α) α),
        (logEnqueue (lsPutAll true) rows st).2 = none
        ∧ (logEnqueue (lsPutAll true) rows st).1.buffer = st.buffer ++ rows)
    ∧ (∀ (rows : List α) (st : EngineState (List α) α),
        (logEnqueue (lsPutAll false) rows st).2 = some JsErr.quotaExceeded
        ∧ (logEnqueue (lsPutAll false) rows st).1.buffer = st.buffer ++ rows
        ∧ (logEnqueue (lsPutAll false) rows st).1.persist = st.persist) := by
  refine ⟨fun writeOk now rows st => ?_, fun rows st => ?_, fun rows st => ?_⟩
  · cases writeOk <;>
      simp [logEnqueue, idbPutAll, (scheduleFlush_fields _ _).2.1]
  · simp [logEnqueue, lsPutAll, (scheduleFlush_fields _ _).2.1]
  · simp [logEnqueue, lsPutAll]

/-! ### C2 -/

/-- C2 counterexample: with the discard flag set, logEnqueue still appends
the row to the Durable Store and to the in-memory mirror (the source's
logEnqueue has no discard check), contradicting the claim that every call
on the enqueue path is a no-op once discard mode is set. -/
theorem c2_counterexample :
    discardState.discard = true
    ∧ (logEnqueue (idbPutAll true 0) [7] discardState).1.persist.entries
        = [⟨0, 0, 7⟩]
    ∧ (logEnqueue (idbPutAll true 0) [7] discardState).1.buffer = [7] :=
  ⟨rfl, rfl, rfl⟩

/-- C2 amended: once the discard flag is set, logTrialRow is a no-op,
scheduleFlush aborts without arming a timer, and flushQueue refuses to run
(so nothing is sent); logEnqueue itself, however, lacks the discard check:
it still appends the rows to the mirror (and the store), although the flush
it requests is suppressed, leaving the timer unchanged. -/
theorem c2_discard_guards (σ τ υ : Type) (α β : Type) :
    (∀ (env : BuildEnv) (putAll : List JsVal → σ → σ × Option JsErr)
       (d : JsVal) (st : EngineState σ JsVal),
        st.discard = true → logTrialRow env putAll d st = st)
    ∧ (∀ (st : EngineState τ α) (delay : Nat),
        st.discard = true → scheduleFlush delay st = st)
    ∧ (∀ (ctx : FlushCtx τ β α) (results : List Bool) (st : EngineState τ α),
        st.discard = true → flushQueue ctx results st = (st, []))
    ∧ (∀ (putAll : List α → υ → υ × Option JsErr) (rows : List α)
       (st : EngineState υ α), st.discard = true →
        (logEnqueue putAll rows st).1.backoffTimer = st.backoffTimer
        ∧ (logEnqueue putAll rows st).1.buffer = st.buffer ++ rows) := by
  refine ⟨fun env putAll d st h => ?_, fun st delay h => ?_,
          fun ctx results st h => ?_, fun putAll rows st h => ?_⟩
  · simp [logTrialRow, h]
  · simp [scheduleFlush, h]
  · simp [flushQueue, h]
  · rcases hp : putAll rows st.persist with ⟨p, e⟩
    cases e <;> simp [logEnqueue, hp, scheduleFlush, h]

/-- Witness for C2 (amended) at concrete discard-mode states. -/
theorem c2_discard_guards_w :
    logTrialRow testEnv (idbPutAll true 0) doorRecord discardStateJs
      = discardStateJs
    ∧ scheduleFlush 0 discardState = discardState
    ∧ flushQueue (ctxIdb Nat) [true] discardState = (discardState, [])
    ∧ (logEnqueue (idbPutAll true 0) [7] discardState).1.backoffTimer
        = discardState.backoffTimer :=
  ⟨(c2_discard_guards (IdbStore JsVal) (IdbStore Nat) (IdbStore Nat) Nat
      (QEntry Nat)).1 testEnv (idbPutAll true 0) doorRecord discardStateJs rfl,
   (c2_discard_guards (IdbStore JsVal) (IdbStore Nat) (IdbStore Nat) Nat
      (QEntry Nat)).2.1 discardState 0 rfl,
   (c2_discard_guards (IdbStore JsVal) (IdbStore Nat) (IdbStore Nat) Nat
      (QEntry Nat)).2.2.1 (ctxIdb Nat) [true] discardState rfl,
   ((c2_discard_guards (IdbStore JsVal) (IdbStore Nat) (IdbStore Nat) Nat
      (QEntry Nat)).2.2.2 (idbPutAll true 0) [7] discardState rfl).1⟩

/-! ### C4 -/

/-- C4: readBatch is a pure read of up to limit entries from the head of the
queue in insertion order, on both backends (it is a function of the store
and does not modify it); and the drain loop partitions the queue in enqueue
order: enqueuing rows 10, 11, 12, 13 and draining with batch size 2 sends
batch [10, 11] before batch [12, 13], emptying the store. -/
theorem c4_fifo_order (α : Type) :
    (∀ (limit : Nat) (s : IdbStore α),
        (ctxIdb α).readBatch limit s = s.entries.take limit)
    ∧ (∀ (limit : Nat) (arr : List α),
        (lsReadBatch limit arr).map LsEntry.row = arr.take limit)
    ∧ ((flushLoop (ctxIdb Nat) 2 5 [true, true]
          (mkIdbState [10, 11, 12, 13])).2.map (fun b => b.map QEntry.row)
        = [[10, 11], [12, 13]]
       ∧ (flushLoop (ctxIdb Nat) 2 5 [true, true]
          (mkIdbState [10, 11, 12, 13])).1.persist.entries = []) := by
  refine ⟨fun limit s => rfl, fun limit arr => ?_, by decide, by decide⟩
  rw [lsReadBatch, List.map_map]
  exact List.enum_map_snd _

/-! ### C1 -/

/-- Deleting a block of entries from the front of a store whose ids do not
reoccur behind it removes exactly that block. -/
theorem deleteIds_append (t d : List (QEntry α))
    (hdisj : ∀ e ∈ d, ∀ it ∈ t, (it.id == e.id) = false) :
    idbDeleteIds t (t ++ d) = d := by
  unfold idbDeleteIds
  rw [List.filter_append]
  have h1 : t.filter (fun e => !(t.any (fun it => it.id == e.id))) = [] := by
    rw [List.filter_eq_nil_iff]
    intro e he
    have hany : t.any (fun it => it.id == e.id) = true :=
      List.any_eq_true.mpr ⟨e, he, by simp⟩
    simp [hany]
  have h2 : d.filter (fun e => !(t.any (fun it => it.id == e.id))) = d := by
    rw [List.filter_eq_self]
    intro e he
    have hany : t.any (fun it => it.id == e.id) = false :=
      List.any_eq_false.mpr (fun it hit => by simp [hdisj e he it hit])
    simp [hany]
  rw [h1, h2, List.nil_append]

/-- With no duplicate ids, idbDeleteIds applied to the head batch read by
idbReadBatch drops exactly that batch. -/
theorem idbDeleteIds_take (l : List (QEntry α)) (n : Nat)
    (h : (l.map QEntry.id).Nodup) :
    idbDeleteIds (l.take n) l = l.drop n := by
  have hdisj : ∀ e ∈ l.drop n, ∀ it ∈ l.take n, (it.id == e.id) = false := by
    intro e he it hit
    cases hb : (it.id == e.id) with
    | false => rfl
    | true =>
      exfalso
      have hid : it.id = e.id := eq_of_beq hb
      have h2 := h
      rw [← List.take_append_drop n l, List.map_append, List.nodup_append] at h2
      obtain ⟨-, -, hd⟩ := h2
      exact hd (List.mem_map_of_mem QEntry.id hit)
        (hid ▸ List.mem_map_of_mem QEntry.id he)
  calc idbDeleteIds (l.take n) l
      = idbDeleteIds (l.take n) (l.take n ++ l.drop n) := by
        rw [List.take_append_drop]
    _ = l.drop n := deleteIds_append _ _ hdisj

/-- One-step unfolding of the drain loop at positive fuel. -/
theorem flushLoop_succ (ctx : FlushCtx σ β α) (bs fuel : Nat)
    (results : List Bool) (st : EngineState σ α) :
    flushLoop ctx bs (fuel + 1) results st =
      (let batch := ctx.readBatch bs st.persist
       if batch.isEmpty then
         ({ st with buffer := [], retryAttempts := 0 }, [])
       else if st.discard then
         let rows := batch.map ctx.rowOf
         let st' := { st with persist := ctx.deleteIds batch st.persist,
                              buffer := st.buffer.drop rows.length,
                              retryAttempts := 0 }
         let out := flushLoop ctx bs fuel results st'
         (out.1, batch :: out.2)
       else
         match results with
         | [] => (st, [])
         | ok :: rest =>
           if ok then
             let rows := batch.map ctx.rowOf
             let st' := { st with persist := ctx.deleteIds batch st.persist,
                                  buffer := st.buffer.drop rows.length,
                                  retryAttempts := 0 }
             let out := flushLoop ctx bs fuel rest st'
             (out.1, batch :: out.2)
           else
             let st' := { st with retryAttempts := st.retryAttempts + 1 }
             (scheduleFlush (backoffMs st'.retryAttempts) st', [])) := rfl

/-- Partition invariant of the drain loop on the IndexedDB backend: with
enough fuel and no duplicate ids, the acknowledged batches concatenated
with the remaining store reconstitute the original store exactly. -/
theorem flushLoop_partition (α : Type) (bs : Nat) :
    ∀ (fuel : Nat) (results : List Bool) (st : EngineState (IdbStore α) α),
      st.persist.entries.length < fuel →
      (st.persist.entries.map QEntry.id).Nodup →
      (flushLoop (ctxIdb α) bs fuel results st).2.flatten
        ++ (flushLoop (ctxIdb α) bs fuel results st).1.persist.entries
        = st.persist.entries := by
  intro fuel
  induction fuel with
  | zero => intro results st hl _; omega
  | succ m ih =>
    intro results st hl hnd
    have hstep : ∀ (res' : List Bool),
        (st.persist.entries.take bs).isEmpty = false →
        st.persist.entries.take bs
          ++ ((flushLoop (ctxIdb α) bs m res'
                { st with
                    persist := { st.persist with
                      entries := idbDeleteIds (st.persist.entries.take bs)
                        st.persist.entries },
                    buffer := st.buffer.drop
                      ((st.persist.entries.take bs).map QEntry.row).length,
                    retryAttempts := 0 }).2.flatten
              ++ (flushLoop (ctxIdb α) bs m res'
                { st with
                    persist := { st.persist with
                      entries := idbDeleteIds (st.persist.entries.take bs)
                        st.persist.entries },
                    buffer := st.buffer.drop
                      ((st.persist.entries.take bs).map QEntry.row).length,
                    retryAttempts := 0 }).1.persist.entries)
          = st.persist.entries := by
      intro res' hbe
      have hEne : st.persist.entries ≠ [] := by
        intro hE
        rw [hE] at hbe
        simp at hbe
      have hbs : bs ≠ 0 := by
        intro hb
        rw [hb] at hbe
        simp at hbe
      have hdel : idbDeleteIds (st.persist.entries.take bs) st.persist.entries
          = st.persist.entries.drop bs := idbDeleteIds_take _ _ hnd
      have h1 : 0 < st.persist.entries.length := List.length_pos.mpr hEne
      have hlen : (st.persist.entries.drop bs).length < m := by
        rw [List.length_drop]
        omega
      have hnd' : ((st.persist.entries.drop bs).map QEntry.id).Nodup := by
        rw [List.map_drop]
        exact List.Nodup.sublist (List.drop_sublist _ _) hnd
      have hlen2 : (idbDeleteIds (st.persist.entries.take bs)
          st.persist.entries).length < m := by rw [hdel]; exact hlen
      have hnd2 : ((idbDeleteIds (st.persist.entries.take bs)
          st.persist.entries).map QEntry.id).Nodup := by rw [hdel]; exact hnd'
      have hrec := ih res'
        { st with
            persist := { st.persist with
              entries := idbDeleteIds (st.persist.entries.take bs)
                st.persist.entries },
            buffer := st.buffer.drop
              ((st.persist.entries.take bs).map QEntry.row).length,
            retryAttempts := 0 } hlen2 hnd2
      rw [hrec]
      conv_lhs => rw [hdel]
      rw [List.take_append_drop]
    rw [flushLoop_succ]
    simp only [ctxIdb]
    cases hbe : (st.persist.entries.take bs).isEmpty with
    | true => simp [hbe]
    | false =>
      cases hd : st.discard with
      | true =>
        simp only [hbe, hd, Bool.false_eq_true, if_false, if_true,
          List.flatten_cons]
        have := hstep results hbe
        simpa [List.append_assoc, hd] using this
      | false =>
        cases results with
        | nil => simp [hbe, hd]
        | cons ok rest =>
          cases ok with
          | false =>
            simp only [hbe, hd, Bool.false_eq_true, if_false,
              List.flatten_nil, List.nil_append]
            simp [(scheduleFlush_fields _ _).1]
          | true =>
            simp only [hbe, hd, Bool.false_eq_true, if_false, if_true,
              List.flatten_cons]
            have := hstep rest hbe
            simpa [List.append_assoc, hd] using this

/-- Unfolding of flushQueue past its entry guard. -/
theorem flushQueue_eq (ctx : FlushCtx σ β α) (results : List Bool)
    (st : EngineState σ α) (hf : st.flushing = false)
    (hd : st.discard = false) :
    flushQueue ctx results st =
      (({ (flushLoop ctx LOG_BATCH_SIZE (ctx.size st.persist + 1) results
            { st with flushing := true }).1 with flushing := false },
        (flushLoop ctx LOG_BATCH_SIZE (ctx.size st.persist + 1) results
            { st with flushing := true }).2)) := by
  simp [flushQueue, hf, hd]

/-- The head batch of a non-empty store is non-empty. -/
theorem take_batch_ne (l : List (QEntry α)) (hne : l ≠ []) :
    (l.take LOG_BATCH_SIZE).isEmpty = false := by
  cases hE : l with
  | nil => exact absurd hE hne
  | cons a t => rfl

/-- Deleting a full batch that equals the whole store empties it. -/
theorem idbDeleteIds_self (l : List (QEntry α)) : idbDeleteIds l l = [] := by
  unfold idbDeleteIds
  rw [List.filter_eq_nil_iff]
  intro e he
  have hany : l.any (fun it => it.id == e.id) = true :=
    List.any_eq_true.mpr ⟨e, he, by simp⟩
  simp [hany]

/-- C1: in the drain loop, a queue entry is deleted from the store exactly
when the batch containing it was acknowledged: the acknowledged batches
concatenated with the remaining store reconstitute the original store (so
no row is lost and none reappears in a different later batch), an entry
remains stored iff it is in no acknowledged batch, a failed first send
deletes nothing and stops the invocation with no batch acknowledged, and a
successful first send acknowledges exactly the head batch. -/
theorem c1_send_then_delete (α : Type) (results : List Bool)
    (st : EngineState (IdbStore α) α)
    (hnd : (st.persist.entries.map QEntry.id).Nodup)
    (hf : st.flushing = false) (hd : st.discard = false) :
    (flushQueue (ctxIdb α) results st).2.flatten
      ++ (flushQueue (ctxIdb α) results st).1.persist.entries
      = st.persist.entries
    ∧ (∀ e ∈ st.persist.entries,
        e ∈ (flushQueue (ctxIdb α) results st).1.persist.entries
          ↔ e ∉ (flushQueue (ctxIdb α) results st).2.flatten)
    ∧ (∀ rest, results = false :: rest →
        (flushQueue (ctxIdb α) results st).1.persist = st.persist
        ∧ (flushQueue (ctxIdb α) results st).2 = [])
    ∧ (∀ rest, results = true :: rest → st.persist.entries ≠ [] →
        (flushQueue (ctxIdb α) results st).2.head?
          = some (st.persist.entries.take LOG_BATCH_SIZE)) := by
  have h1 : (flushQueue (ctxIdb α) results st).2.flatten
      ++ (flushQueue (ctxIdb α) results st).1.persist.entries
      = st.persist.entries := by
    rw [flushQueue_eq _ _ _ hf hd]
    exact flushLoop_partition α LOG_BATCH_SIZE _ results
      { st with flushing := true } (Nat.lt_succ_self _) hnd
  refine ⟨h1, ?_, ?_, ?_⟩
  · intro e he
    have hnde : st.persist.entries.Nodup := List.Nodup.of_map QEntry.id hnd
    have hnJF : ((flushQueue (ctxIdb α) results st).2.flatten
        ++ (flushQueue (ctxIdb α) results st).1.persist.entries).Nodup := by
      rw [h1]; exact hnde
    obtain ⟨-, -, hdisj⟩ := List.nodup_append.mp hnJF
    constructor
    · intro hF hJ
      exact hdisj hJ hF
    · intro hnJ
      have hm : e ∈ (flushQueue (ctxIdb α) results st).2.flatten
          ++ (flushQueue (ctxIdb α) results st).1.persist.entries := by
        rw [h1]; exact he
      rcases List.mem_append.mp hm with hJ | hF
      · exact absurd hJ hnJ
      · exact hF
  · intro rest hres
    subst hres
    rw [flushQueue_eq _ _ _ hf hd, flushLoop_succ]
    simp only [ctxIdb]
    cases hbe : (st.persist.entries.take LOG_BATCH_SIZE).isEmpty with
    | true => simp [hbe]
    | false =>
      simp only [hbe, hd, Bool.false_eq_true, if_false]
      constructor
      · have hp := (scheduleFlush_fields
          (backoffMs (st.retryAttempts + 1))
          { st with flushing := true, retryAttempts := st.retryAttempts + 1 }).1
        simpa [hd] using hp
      · trivial
  · intro rest hres hne
    subst hres
    rw [flushQueue_eq _ _ _ hf hd, flushLoop_succ]
    simp only [ctxIdb]
    simp [take_batch_ne st.persist.entries hne, hd]

/-- Witness for C1 at a concrete three-row store and a successful send. -/
theorem c1_send_then_delete_w :
    (flushQueue (ctxIdb Nat) [true] (mkIdbState [1, 2, 3])).2.flatten
      ++ (flushQueue (ctxIdb Nat) [true]
          (mkIdbState [1, 2, 3])).1.persist.entries
      = (mkIdbState [1, 2, 3]).persist.entries :=
  (c1_send_then_delete Nat [true] (mkIdbState [1, 2, 3])
    (by decide) rfl rfl).1

/-! ### C3 -/

/-- The failure step of the drain loop: a failing send increments the retry
counter, leaves the store untouched, and arms the backoff timer with
backoffMs of the new counter. -/
theorem flushQueue_fail_step (α : Type) (st : EngineState (IdbStore α) α)
    (rest : List Bool) (hf : st.flushing = false) (hd : st.discard = false)
    (hne : st.persist.entries ≠ []) (ht : st.backoffTimer = none) :
    (flushQueue (ctxIdb α) (false :: rest) st).1.backoffTimer
      = some (backoffMs (st.retryAttempts + 1))
    ∧ (flushQueue (ctxIdb α) (false :: rest) st).1.retryAttempts
      = st.retryAttempts + 1 := by
  rw [flushQueue_eq _ _ _ hf hd, flushLoop_succ]
  simp only [ctxIdb]
  simp [take_batch_ne st.persist.entries hne, hd, scheduleFlush, ht]

/-- C3: the backoff delay scheduled after the n-th consecutive failure is
min(30000, 500·2^n) ms — 1000, 2000, 4000 after failures 1, 2, 3 and
clamped to 30000 at the 10th — and the retry counter resets to 0 on a
successful send and when the queue drains empty. -/
theorem c3_backoff_schedule (α : Type) :
    (∀ (st : EngineState (IdbStore α) α) (rest : List Bool) (n : Nat),
        1 ≤ n → st.retryAttempts = n - 1 → st.flushing = false →
        st.discard = false → st.backoffTimer = none →
        st.persist.entries ≠ [] →
        (flushQueue (ctxIdb α) (false :: rest) st).1.backoffTimer
            = some (min 30000 (500 * 2 ^ n))
        ∧ (flushQueue (ctxIdb α) (false :: rest) st).1.retryAttempts = n)
    ∧ (backoffMs 1 = 1000 ∧ backoffMs 2 = 2000 ∧ backoffMs 3 = 4000
       ∧ backoffMs 10 = 30000)
    ∧ (∀ (st : EngineState (IdbStore α) α) (results : List Bool),
        st.flushing = false → st.discard = false →
        st.persist.entries = [] →
        (flushQueue (ctxIdb α) results st).1.retryAttempts = 0)
    ∧ (∀ (st : EngineState (IdbStore α) α) (results : List Bool),
        st.flushing = false → st.discard = false →
        st.persist.entries ≠ [] →
        st.persist.entries.length ≤ LOG_BATCH_SIZE →
        (flushQueue (ctxIdb α) (true :: results) st).1.retryAttempts = 0) := by
  refine ⟨?_, by refine ⟨by decide, by decide, by decide, by decide⟩, ?_, ?_⟩
  · intro st rest n hn hr hf hd ht hne
    have hfail := flushQueue_fail_step α st rest hf hd hne ht
    have hrn : st.retryAttempts + 1 = n := by omega
    rw [hrn] at hfail
    exact ⟨hfail.1, hfail.2⟩
  · intro st results hf hd hE
    rw [flushQueue_eq _ _ _ hf hd, flushLoop_succ]
    simp [ctxIdb, hE]
  · intro st results hf hd hne hlen
    obtain ⟨a, l', hE⟩ : ∃ a l', st.persist.entries = a :: l' := by
      cases hE : st.persist.entries with
      | nil => exact absurd hE hne
      | cons a t => exact ⟨a, t, rfl⟩
    have htake : st.persist.entries.take LOG_BATCH_SIZE = st.persist.entries :=
      List.take_of_length_le hlen
    have hdel : idbDeleteIds (st.persist.entries.take LOG_BATCH_SIZE)
        st.persist.entries = [] := by
      rw [htake]; exact idbDeleteIds_self _
    have hlen1 : st.persist.entries.length = l'.length + 1 := by
      rw [hE]; rfl
    rw [flushQueue_eq _ _ _ hf hd]
    simp only [ctxIdb, hlen1]
    rw [flushLoop_succ]
    simp only [take_batch_ne st.persist.entries hne, hd, Bool.false_eq_true,
      if_false, if_true, hdel]
    rw [flushLoop_succ]
    simp

/-- Witness for C3: the first failure on a one-row store schedules a
1000 ms backoff, and a successful send on a two-row store resets the retry
counter. -/
theorem c3_backoff_schedule_w :
    (flushQueue (ctxIdb Nat) [false] (mkIdbState [1])).1.backoffTimer
        = some 1000
    ∧ (flushQueue (ctxIdb Nat) [false] (mkIdbState [1])).1.retryAttempts = 1
    ∧ (flushQueue (ctxIdb Nat) [true] (mkIdbState [1, 2])).1.retryAttempts
        = 0 := by
  have h := (c3_backoff_schedule Nat).1 (mkIdbState [1]) [] 1 (by decide)
    rfl rfl rfl rfl (by decide)
  have h2 := (c3_backoff_schedule Nat).2.2.2 (mkIdbState [1, 2]) [] rfl rfl
    (by decide) (by decide)
  exact ⟨h.1.trans (by decide), h.2, h2⟩

/-! ### C6 -/

/-- Assigning a different key leaves a field-list lookup unchanged. -/
theorem lookupField_setFields_ne (fs : List (String × JsVal)) (k' k : String)
    (v : JsVal) (h : (k' == k) = false) :
    lookupField (setFields fs k' v) k = lookupField fs k := by
  induction fs with
  | nil => simp [setFields, lookupField, h]
  | cons a rest ih =>
    rcases a with ⟨ak, av⟩
    by_cases hak : (ak == k') = true
    · have hak' : ak = k' := eq_of_beq hak
      subst hak'
      simp only [setFields, hak, if_true, lookupField, h, Bool.false_eq_true,
        if_false]
    · have hak0 : (ak == k') = false := by
        cases hb : (ak == k') with
        | false => rfl
        | true => exact absurd hb hak
      simp only [setFields, hak0, Bool.false_eq_true, if_false, lookupField]
      cases hk : (ak == k) with
      | true => simp [hk]
      | false => simp [hk, ih]

/-- Property assignment at a different key leaves a property read
unchanged. -/
theorem getOwn_setField_ne (r : JsVal) (k' k : String) (v : JsVal)
    (h : (k' == k) = false) :
    getOwn (jsSetField r k' v) k = getOwn r k := by
  cases r with
  | obj fs => exact lookupField_setFields_ne fs k' k v h
  | undefined => rfl
  | null => rfl
  | bool b => rfl
  | num n => rfl
  | str s => rfl
  | arr xs => rfl

/-- The unknown-field passthrough never changes a reserved field. -/
theorem getOwn_applyPassthrough (reserved : List String)
    (fs : List (String × JsVal)) (row : JsVal) (k : String)
    (h : reserved.contains k = true) :
    getOwn (applyPassthrough reserved fs row) k = getOwn row k := by
  induction fs generalizing row with
  | nil => rfl
  | cons kv rest ih =>
    show getOwn (applyPassthrough reserved rest
      (if reserved.contains kv.1 then row else jsSetField row kv.1 kv.2)) k
      = getOwn row k
    by_cases hres : reserved.contains kv.1 = true
    · rw [if_pos hres]
      exact ih row
    · rw [if_neg hres]
      have hne : (kv.1 == k) = false := by
        cases hb : (kv.1 == k) with
        | false => rfl
        | true =>
          exfalso
          have hk : kv.1 = k := eq_of_beq hb
          rw [hk] at hres
          exact hres h
      rw [ih (jsSetField row kv.1 kv.2)]
      exact getOwn_setField_ne row kv.1 k kv.2 hne

/-- The row literal carries the uaField verbatim in its user_agent field. -/
theorem rowLiteral_ua (env : BuildEnv) (d et uaField : JsVal) :
    getOwn (rowLiteral env d et uaField) "user_agent" = uaField := rfl

/-- After the questionnaire-field assignments, user_agent is still a
reserved key of the row. -/
theorem row2_reserved_ua (env : BuildEnv) (d et uaField qv sv : JsVal) :
    (rowKeys (jsSetField (jsSetField (rowLiteral env d et uaField)
      "qa_pairs_json" qv) "questionnaire_score" sv)).contains "user_agent"
      = true := rfl

/-- Per-record user-agent behavior of the normalizer: a dropped record
leaves the flag unchanged, and an emitted row carries the raw UA exactly
when the flag was still unset, after which the flag is set iff the UA
string is truthy. -/
theorem buildOneRow_ua (env : BuildEnv) (flag : Bool) (d : JsVal) :
    ((buildOneRow env flag d).1 = none ∧ (buildOneRow env flag d).2 = flag)
    ∨ ((∃ r, (buildOneRow env flag d).1 = some r
          ∧ getOwn r "user_agent"
              = (if flag then JsVal.null else .str env.ua))
       ∧ (buildOneRow env flag d).2 = (flag || truthy (.str env.ua))) := by
  by_cases h1 : (ignoreHas (jsOr (getOwn d "trial_type") (.str ""))
      || !(allowHas (mapEventType d))) = true
  · left
    simp [buildOneRow, h1]
  · have h1' : (ignoreHas (jsOr (getOwn d "trial_type") (.str ""))
        || !(allowHas (mapEventType d))) = false := by
      cases hb : (ignoreHas (jsOr (getOwn d "trial_type") (.str ""))
          || !(allowHas (mapEventType d))) with
      | false => rfl
      | true => exact absurd hb h1
    by_cases h2 : ((match getOwn d "is_demo" with
        | .bool true => true | _ => false)
        || strEq (mapEventType d) "training_demo"
        || strEq (getOwn d "trial_type") "training_demo") = true
    · left
      simp [buildOneRow, h1', h2]
    · have h2' : ((match getOwn d "is_demo" with
          | .bool true => true | _ => false)
          || strEq (mapEventType d) "training_demo"
          || strEq (getOwn d "trial_type") "training_demo") = false := by
        cases hb : ((match getOwn d "is_demo" with
            | .bool true => true | _ => false)
            || strEq (mapEventType d) "training_demo"
            || strEq (getOwn d "trial_type") "training_demo") with
        | false => rfl
        | true => exact absurd hb h2
      right
      constructor
      · simp only [buildOneRow, h1', h2', Bool.false_eq_true, if_false]
        refine ⟨_, rfl, ?_⟩
        rw [getOwn_applyPassthrough _ _ _ _ (row2_reserved_ua env d _ _ _ _),
            getOwn_setField_ne _ _ _ _ (by rfl),
            getOwn_setField_ne _ _ _ _ (by rfl),
            rowLiteral_ua]
      · simp only [buildOneRow, h1', h2', Bool.false_eq_true, if_false]
        cases flag with
        | true => simp
        | false => cases htr : truthy (JsVal.str env.ua) <;> simp [htr]

/-- Once the UA flag is set, it stays set and every emitted row of a call
carries a null user_agent. -/
theorem buildRows_flag_true (env : BuildEnv) (trials : List JsVal) :
    (buildRowsForLogging env true trials).2 = true
    ∧ ∀ rows, (buildRowsForLogging env true trials).1 = .ok rows →
        ∀ r ∈ rows, getOwn r "user_agent" = JsVal.null := by
  induction trials with
  | nil =>
    refine ⟨rfl, fun rows h r hr => ?_⟩
    have : rows = [] := (Except.ok.inj h).symm
    subst this
    simp at hr
  | cons d rest ih =>
    simp only [buildRowsForLogging]
    cases hn : d.isNullish with
    | true =>
      refine ⟨rfl, fun rows h => ?_⟩
      exact absurd h (by simp)
    | false =>
      have hstep2 : (buildOneRow env true d).2 = true := by
        rcases buildOneRow_ua env true d with ⟨-, h2⟩ | ⟨-, h2⟩
        · exact h2
        · rw [h2]; rfl
      rw [hstep2]
      rcases hrec : buildRowsForLogging env true rest with ⟨res, flagF⟩
      have hihF := ih.1
      rw [hrec] at hihF
      cases res with
      | error e =>
        refine ⟨hihF, fun rows h => ?_⟩
        exact absurd h (by simp)
      | ok rows' =>
        refine ⟨hihF, fun rows h r hr => ?_⟩
        have hrows : rows = (buildOneRow env true d).1.toList ++ rows' :=
          (Except.ok.inj h).symm
        subst hrows
        rcases List.mem_append.mp hr with hr1 | hr2
        · rcases hs : (buildOneRow env true d).1 with - | r0
          · rw [hs] at hr1; simp at hr1
          · rw [hs] at hr1
            simp only [Option.toList_some, List.mem_singleton] at hr1
            rcases buildOneRow_ua env true d with ⟨h1, -⟩ | ⟨⟨r1, hr1', hua⟩, -⟩
            · rw [h1] at hs; exact absurd hs (by simp)
            · have hr01 : r0 = r1 := by
                rw [hr1'] at hs
                exact (Option.some.inj hs).symm
              rw [hr1, hr01]
              simpa using hua
        · have hok : (buildRowsForLogging env true rest).1 = .ok rows' := by
            rw [hrec]
          exact ih.2 rows' hok r hr2

/-- Within one call that starts with the UA flag unset and a truthy UA
string, either nothing was emitted (flag still unset) or the first emitted
row carries the raw UA, the flag ends set, and every later row is null. -/
theorem buildRows_flag_false (env : BuildEnv)
    (htr : truthy (.str env.ua) = true) (trials : List JsVal) :
    ∀ rows, (buildRowsForLogging env false trials).1 = .ok rows →
      (rows = [] ∧ (buildRowsForLogging env false trials).2 = false)
      ∨ (∃ r rest2, rows = r :: rest2
          ∧ getOwn r "user_agent" = JsVal.str env.ua
          ∧ (buildRowsForLogging env false trials).2 = true
          ∧ ∀ r' ∈ rest2, getOwn r' "user_agent" = JsVal.null) := by
  induction trials with
  | nil =>
    intro rows h
    left
    exact ⟨(Except.ok.inj h).symm, rfl⟩
  | cons d rest ih =>
    intro rows h
    simp only [buildRowsForLogging] at h ⊢
    cases hn : d.isNullish with
    | true => simp [hn] at h
    | false =>
      simp only [hn, Bool.false_eq_true, if_false] at h ⊢
      rcases buildOneRow_ua env false d with ⟨hs1, hs2⟩ | ⟨⟨r1, hr1, hua⟩, hs2⟩
      · rw [hs2] at h ⊢
        rcases hrec : buildRowsForLogging env false rest with ⟨res, fl⟩
        rw [hrec] at h
        cases res with
        | error e => exact absurd h (by simp)
        | ok rows' =>
          have hrows : rows = (buildOneRow env false d).1.toList ++ rows' :=
            (Except.ok.inj h).symm
          rw [hs1] at hrows
          simp only [Option.toList_none, List.nil_append] at hrows
          have hok : (buildRowsForLogging env false rest).1 = .ok rows' := by
            rw [hrec]
          rcases ih rows' hok with ⟨hr0, hfl⟩ | ⟨r, rest2, hr0, hur, hfl, hnull⟩
          · left
            rw [hrec] at hfl
            exact ⟨hrows.trans hr0, hfl⟩
          · right
            rw [hrec] at hfl
            exact ⟨r, rest2, hrows.trans hr0, hur, hfl, hnull⟩
      · simp only [hs2, htr, Bool.or_true] at h ⊢
        rcases hrec : buildRowsForLogging env true rest with ⟨res, fl⟩
        rw [hrec] at h
        cases res with
        | error e => exact absurd h (by simp)
        | ok rows' =>
          have hrows : rows = (buildOneRow env false d).1.toList ++ rows' :=
            (Except.ok.inj h).symm
          rw [hr1] at hrows
          simp only [Option.toList_some, List.singleton_append] at hrows
          right
          refine ⟨r1, rows', hrows, by simpa using hua, ?_, ?_⟩
          · have hfl := (buildRows_flag_true env rest).1
            rw [hrec] at hfl
            exact hfl
          · intro r' hr'
            have hok : (buildRowsForLogging env true rest).1 = .ok rows' := by
              rw [hrec]
            exact (buildRows_flag_true env rest).2 rows' hok r' hr'

/-- Unfolding of buildCalls on a call that completed successfully. -/
theorem buildCalls_cons_ok (env : BuildEnv) (flag : Bool) (c : List JsVal)
    (cs : List (List JsVal)) (rows1 : List JsVal) (fl : Bool)
    (hc : buildRowsForLogging env flag c = (.ok rows1, fl)) :
    buildCalls env flag (c :: cs)
      = (match buildCalls env fl cs with
         | (.ok rest', flagF) => (.ok (rows1 ++ rest'), flagF)
         | (.error e, flagF) => (.error e, flagF)) := by
  simp only [buildCalls, hc]

/-- Unfolding of buildCalls on a call that threw. -/
theorem buildCalls_cons_err (env : BuildEnv) (flag : Bool) (c : List JsVal)
    (cs : List (List JsVal)) (e : JsErr) (fl : Bool)
    (hc : buildRowsForLogging env flag c = (.error e, fl)) :
    buildCalls env flag (c :: cs) = (.error e, fl) := by
  simp only [buildCalls, hc]

/-- Across calls, once the UA flag is set it stays set and all rows are
null-UA. -/
theorem buildCalls_flag_true (env : BuildEnv) (calls : List (List JsVal)) :
    (buildCalls env true calls).2 = true
    ∧ ∀ rows, (buildCalls env true calls).1 = .ok rows →
        ∀ r ∈ rows, getOwn r "user_agent" = JsVal.null := by
  induction calls with
  | nil =>
    refine ⟨rfl, fun rows h r hr => ?_⟩
    have hrows : rows = [] := (Except.ok.inj h).symm
    subst hrows
    simp at hr
  | cons c cs ih =>
    rcases hc : buildRowsForLogging env true c with ⟨res, fl⟩
    have hfl := (buildRows_flag_true env c).1
    rw [hc] at hfl
    have hfl' : fl = true := hfl
    cases res with
    | error e =>
      rw [hfl'] at hc
      rw [buildCalls_cons_err env true c cs e true hc]
      exact ⟨rfl, fun rows h => absurd h (by simp)⟩
    | ok rows1 =>
      rw [hfl'] at hc
      rw [buildCalls_cons_ok env true c cs rows1 true hc]
      rcases hrec : buildCalls env true cs with ⟨res2, fl2⟩
      have hfl2 := ih.1
      rw [hrec] at hfl2
      have hfl2' : fl2 = true := hfl2
      cases res2 with
      | error e => exact ⟨hfl2', fun rows h => absurd h (by simp)⟩
      | ok rows2 =>
        refine ⟨hfl2', fun rows h r hr => ?_⟩
        have hrows : rows = rows1 ++ rows2 := (Except.ok.inj h).symm
        subst hrows
        rcases List.mem_append.mp hr with hx | hx
        · have hok1 : (buildRowsForLogging env true c).1 = .ok rows1 := by
            rw [hc]
          exact (buildRows_flag_true env c).2 rows1 hok1 r hx
        · have hok2 : (buildCalls env true cs).1 = .ok rows2 := by
            rw [hrec]
          exact ih.2 rows2 hok2 r hx

/-- Across calls that start with the flag unset: either nothing was emitted
yet, or the first emitted row of the session carries the raw UA and every
later row is null. -/
theorem buildCalls_flag_false (env : BuildEnv)
    (htr : truthy (.str env.ua) = true) (calls : List (List JsVal)) :
    ∀ rows, (buildCalls env false calls).1 = .ok rows →
      (rows = [] ∧ (buildCalls env false calls).2 = false)
      ∨ (∃ r rest2, rows = r :: rest2
          ∧ getOwn r "user_agent" = JsVal.str env.ua
          ∧ (buildCalls env false calls).2 = true
          ∧ ∀ r' ∈ rest2, getOwn r' "user_agent" = JsVal.null) := by
  induction calls with
  | nil =>
    intro rows h
    left
    exact ⟨(Except.ok.inj h).symm, rfl⟩
  | cons c cs ih =>
    intro rows h
    rcases hc : buildRowsForLogging env false c with ⟨res, fl⟩
    cases res with
    | error e =>
      rw [buildCalls_cons_err env false c cs e fl hc] at h
      exact absurd h (by simp)
    | ok rows1 =>
      have hok1 : (buildRowsForLogging env false c).1 = .ok rows1 := by
        rw [hc]
      rcases buildRows_flag_false env htr c rows1 hok1 with
        ⟨hr1, hfl1⟩ | ⟨r, rest2, hr1, hur, hfl1, hnull⟩
      · rw [hc] at hfl1
        have hfl1' : fl = false := hfl1
        rw [hfl1'] at hc
        rw [buildCalls_cons_ok env false c cs rows1 false hc] at h ⊢
        rcases hrec : buildCalls env false cs with ⟨res2, fl2⟩
        rw [hrec] at h
        cases res2 with
        | error e => exact absurd h (by simp)
        | ok rows2 =>
          have hrows : rows = rows1 ++ rows2 := (Except.ok.inj h).symm
          rw [hr1, List.nil_append] at hrows
          have hok2 : (buildCalls env false cs).1 = .ok rows2 := by
            rw [hrec]
          rcases ih rows2 hok2 with ⟨hr2, hfl2⟩ |
            ⟨r, rest3, hr2, hur, hfl2, hnull⟩
          · left
            rw [hrec] at hfl2
            exact ⟨hrows.trans hr2, hfl2⟩
          · right
            rw [hrec] at hfl2
            exact ⟨r, rest3, hrows.trans hr2, hur, hfl2, hnull⟩
      · rw [hc] at hfl1
        have hfl1' : fl = true := hfl1
        rw [hfl1'] at hc
        rw [buildCalls_cons_ok env false c cs rows1 true hc] at h ⊢
        rcases hrec : buildCalls env true cs with ⟨res2, fl2⟩
        rw [hrec] at h
        cases res2 with
        | error e => exact absurd h (by simp)
        | ok rows2 =>
          have hrows : rows = rows1 ++ rows2 := (Except.ok.inj h).symm
          right
          have hfl2 := (buildCalls_flag_true env cs).1
          rw [hrec] at hfl2
          refine ⟨r, rest2 ++ rows2, by rw [hrows, hr1]; simp, hur, hfl2, ?_⟩
          intro r' hr'
          rcases List.mem_append.mp hr' with hx | hx
          · exact hnull r' hx
          · have hok2 : (buildCalls env true cs).1 = .ok rows2 := by
              rw [hrec]
            exact (buildCalls_flag_true env cs).2 rows2 hok2 r' hx

/-- C6 counterexample: in a session whose user-agent string is empty, the
flag-setting assignment `if (!__UA_EMITTED__ && uaField)` never fires
(an empty string is falsy), so the second emitted row still carries the raw
(empty) UA string instead of null, contradicting the claim that every row
after the first carries a null user_agent. -/
theorem c6_counterexample :
    getOwn ((okRows (buildRowsForLogging blankUaEnv false
        [doorRecord, doorRecord])).getD 1 JsVal.null) "user_agent"
      = JsVal.str ""
    ∧ JsVal.str "" ≠ JsVal.null := by
  refine ⟨rfl, fun h => ?_⟩
  exact nomatch h

/-- C6 amended: provided the session's user-agent string is non-empty,
across any sequence of normalizer calls that complete without throwing, the
raw UA string appears exactly on the first emitted row of the session and
every subsequently emitted row carries a null user_agent; the once-emitted
state persists across calls. -/
theorem c6_ua_once_per_session (env : BuildEnv) (calls : List (List JsVal))
    (rows : List JsVal) (hua : env.ua ≠ "")
    (hok : (buildCalls env false calls).1 = .ok rows) :
    ∀ r rest, rows = r :: rest →
      getOwn r "user_agent" = JsVal.str env.ua
      ∧ ∀ r' ∈ rest, getOwn r' "user_agent" = JsVal.null := by
  intro r rest hcons
  have htr : truthy (.str env.ua) = true := by
    cases hb : (env.ua == "") with
    | true => exact absurd (eq_of_beq hb) hua
    | false => simp [truthy, hb]
  rcases buildCalls_flag_false env htr calls rows hok with
    ⟨hr0, -⟩ | ⟨r1, rest1, hr1, hur, -, hnull⟩
  · rw [hcons] at hr0
    exact absurd hr0 (by simp)
  · rw [hcons] at hr1
    obtain ⟨he1, he2⟩ := List.cons.inj hr1
    refine ⟨?_, ?_⟩
    · rw [he1]
      exact hur
    · rw [he2]
      exact hnull

/-- Witness for C6 (amended): two single-record calls in the concrete
environment; the first row carries the UA, the second is null. -/
theorem c6_ua_once_per_session_w :
    getOwn ((okRows (buildCalls testEnv false
        [[doorRecord], [doorRecord]])).headD JsVal.null) "user_agent"
      = JsVal.str testEnv.ua
    ∧ getOwn ((okRows (buildCalls testEnv false
        [[doorRecord], [doorRecord]])).getD 1 JsVal.null) "user_agent"
      = JsVal.null := by
  have h := c6_ua_once_per_session testEnv [[doorRecord], [doorRecord]]
    (okRows (buildCalls testEnv false [[doorRecord], [doorRecord]]))
    (by decide) (by rfl)
  have h2 := h ((okRows (buildCalls testEnv false
      [[doorRecord], [doorRecord]])).headD JsVal.null)
    ((okRows (buildCalls testEnv false [[doorRecord], [doorRecord]])).tail)
    (by rfl)
  refine ⟨h2.1, h2.2 _ ?_⟩
  exact List.Mem.head _

/-! ### C8 -/

/-- C8 counterexample: a null entry in the input array makes the map
callback of buildRowsForLogging throw a TypeError at its first property
access (d.event_type in mapEventType), so the normalizer is not total for
every input array — logTrialRow's try/catch is what protects the caller. -/
theorem c8_counterexample :
    (buildRowsForLogging testEnv false [JsVal.null]).1
      = Except.error JsErr.typeError := rfl

/-- C8 amended: the normalizer never throws for an input array free of
null/undefined entries; a record whose resolved event type is not in the
allow-list yields no row and leaves both the UA flag and the surviving
records' processing unaffected (the call behaves as if the record were
absent). A null/undefined entry, however, aborts the call with a
TypeError. -/
theorem c8_total_normalizer (env : BuildEnv) :
    (∀ (trials : List JsVal) (flag : Bool),
        (∀ d ∈ trials, d.isNullish = false) →
        ∃ rows, (buildRowsForLogging env flag trials).1 = Except.ok rows)
    ∧ (∀ (d : JsVal) (flag : Bool), allowHas (mapEventType d) = false →
        (buildOneRow env flag d).1 = none
        ∧ (buildOneRow env flag d).2 = flag)
    ∧ (∀ (d : JsVal) (rest : List JsVal) (flag : Bool),
        d.isNullish = false → allowHas (mapEventType d) = false →
        buildRowsForLogging env flag (d :: rest)
          = buildRowsForLogging env flag rest) := by
  have hdrop : ∀ (d : JsVal) (flag : Bool),
      allowHas (mapEventType d) = false →
      buildOneRow env flag d = (none, flag) := by
    intro d flag h
    simp [buildOneRow, h]
  refine ⟨?_, fun d flag h => by rw [hdrop d flag h]; exact ⟨rfl, rfl⟩,
    fun d rest flag hn h => ?_⟩
  · intro trials
    induction trials with
    | nil => intro flag _; exact ⟨[], rfl⟩
    | cons d rest ih =>
      intro flag hno
      have hn : d.isNullish = false := hno d (List.mem_cons_self d rest)
      obtain ⟨rows', hrows'⟩ := ih (buildOneRow env flag d).2
        (fun x hx => hno x (List.mem_cons_of_mem d hx))
      refine ⟨(buildOneRow env flag d).1.toList ++ rows', ?_⟩
      simp only [buildRowsForLogging, hn, Bool.false_eq_true, if_false]
      rcases hrec : buildRowsForLogging env (buildOneRow env flag d).2 rest
        with ⟨res, fl⟩
      rw [hrec] at hrows'
      cases res with
      | error e => exact absurd hrows' (by simp)
      | ok rows2 =>
        have : rows2 = rows' := Except.ok.inj hrows'
        subst this
        rfl
  · simp only [buildRowsForLogging, hn, Bool.false_eq_true, if_false,
      hdrop d flag h]
    rcases hrec : buildRowsForLogging env flag rest with ⟨res, fl⟩
    cases res with
    | error e => rfl
    | ok rows2 => simp

/-- Witness for C8 (amended): a bare number record is unclassifiable and
yields nothing while the array still normalizes, and a door record
normalizes successfully. -/
theorem c8_total_normalizer_w :
    (buildOneRow testEnv false (JsVal.num 5)).1 = none
    ∧ buildRowsForLogging testEnv false [JsVal.num 5]
        = buildRowsForLogging testEnv false []
    ∧ ∃ rows, (buildRowsForLogging testEnv false [doorRecord]).1
        = Except.ok rows := by
  refine ⟨((c8_total_normalizer testEnv).2.1 (JsVal.num 5) false rfl).1,
    (c8_total_normalizer testEnv).2.2 (JsVal.num 5) [] false rfl rfl, ?_⟩
  exact (c8_total_normalizer testEnv).1 [doorRecord] false
    (by intro d hd; rw [List.mem_singleton] at hd; subst hd; rfl)

end TrustLog
